import Mathlib

/-!
Verification of the BookLogger metadata engine (`src/app/metadata.py`).

The development shallowly embeds the pure core of the module: the text
normalizer, the ISBN detector, the two scoring functions, the per-provider
candidate construction of `search_google` / `search_open_library` (with the
network responses supplied as explicit values), and the aggregator
`search_aggregated` (filter by `MATCH_THRESHOLD`, stable descending sort by
score).  Python strings are modelled as `List Char` / `String`, Python ints
as `Int`, and fallible code (an uncaught exception escaping a function) as
`Except Unit`.
-/

namespace BookLogger

/-! ## Text primitives (modelling Python str operations used by the module) -/

/-- ASCII decimal digit, as used by `str.isdigit` on the ASCII inputs this
module handles (the exotic Unicode digit categories are outside the model). -/
def pyIsDigit (c : Char) : Bool :=
  48 ≤ c.toNat && c.toNat ≤ 57

/-- ASCII whitespace as recognised by Python's `str.isspace` / `str.split`:
space, TAB..CR (9..13) and the separator controls FS..US (28..31). -/
def isAsciiSpace (c : Char) : Bool :=
  c.toNat == 32 || (9 ≤ c.toNat && c.toNat ≤ 13) || (28 ≤ c.toNat && c.toNat ≤ 31)

/-- ASCII alphanumeric, as recognised by Python's `str.isalnum` on the
pure-ASCII strings produced by the `.encode('ascii','ignore')` step. -/
def isAsciiAlnum (c : Char) : Bool :=
  (48 ≤ c.toNat && c.toNat ≤ 57) || (97 ≤ c.toNat && c.toNat ≤ 122) ||
    (65 ≤ c.toNat && c.toNat ≤ 90)

/-- The 26 uppercase-to-lowercase ASCII mappings of Python `str.lower`. -/
def lowerTable : List (Char × Char) :=
  [('A', 'a'), ('B', 'b'), ('C', 'c'), ('D', 'd'), ('E', 'e'), ('F', 'f'),
   ('G', 'g'), ('H', 'h'), ('I', 'i'), ('J', 'j'), ('K', 'k'), ('L', 'l'),
   ('M', 'm'), ('N', 'n'), ('O', 'o'), ('P', 'p'), ('Q', 'q'), ('R', 'r'),
   ('S', 's'), ('T', 't'), ('U', 'u'), ('V', 'v'), ('W', 'w'), ('X', 'x'),
   ('Y', 'y'), ('Z', 'z')]

/-- Python `str.lower` restricted to ASCII input (the string it is applied to
in `normalize_text` has already been passed through `encode('ascii','ignore')`,
so only the 26 uppercase ASCII letters can change). -/
def pyLower (c : Char) : Char :=
  ((lowerTable.find? (fun p => p.1 == c)).map Prod.snd).getD c

/-- One character of `unicodedata.normalize('NFKD', s).encode('ascii','ignore')`.
ASCII characters are NFKD-invariant and survive the ascii encoding unchanged.
A non-ASCII character contributes exactly the ASCII constituents of its NFKD
decomposition: for the accented letters appearing in this development that is
the base letter (the combining accent is dropped by `'ignore'`); a non-ASCII
character with no ASCII constituents (e.g. an em dash) is dropped entirely. -/
def nfkdAscii (c : Char) : List Char :=
  if c.toNat < 128 then [c]
  else if c = 'é' then ['e']
  else if c = 'è' then ['e']
  else if c = 'á' then ['a']
  else if c = 'à' then ['a']
  else if c = 'ü' then ['u']
  else if c = 'ö' then ['o']
  else []

/-- Concatenation of `nfkdAscii` over a string, i.e. the whole
`unicodedata.normalize('NFKD', s).encode('ascii','ignore').decode()` step. -/
def asciiFold : List Char → List Char
  | [] => []
  | c :: cs => nfkdAscii c ++ asciiFold cs

/-- The characters of `clean_ascii.lower()` surviving the
`c.isalnum() or c.isspace()` filter in `normalize_text`. -/
def cleanChars (l : List Char) : List Char :=
  ((asciiFold l).map pyLower).filter (fun c => isAsciiAlnum c || isAsciiSpace c)

/-- Python `str.split()` (no separator argument): split on runs of whitespace,
dropping empty tokens.  `acc` holds the characters of the word currently being
read, in reverse. -/
def pySplitAux (acc : List Char) : List Char → List (List Char)
  | [] => if acc = [] then [] else [acc.reverse]
  | c :: cs =>
    if isAsciiSpace c then
      if acc = [] then pySplitAux [] cs else acc.reverse :: pySplitAux [] cs
    else pySplitAux (c :: acc) cs

/-- Python `" ".join(words)`. -/
def joinSpace : List (List Char) → List Char
  | [] => []
  | [w] => w
  | w :: ws => w ++ ' ' :: joinSpace ws

/-- Character-level core of `normalize_text`: ascii-fold, lowercase, keep
alphanumerics and whitespace, then collapse whitespace via split/join. -/
def normList (l : List Char) : List Char :=
  joinSpace (pySplitAux [] (cleanChars l))

/-- `normalize_text(text)` from `metadata.py` (the `if not text: return ""`
guard is the `text = ""` case; the `None` case is `normalize_opt`). -/
def normalize_text (s : String) : String :=
  if s = "" then "" else ⟨normList s.data⟩

/-- `normalize_text` applied to an optional (possibly `None`) argument; the
`if not text` guard maps `None` to the empty string. -/
def normalize_opt : Option String → String
  | none => ""
  | some s => normalize_text s

/-- List-level "starts with" (Python `str.startswith`). -/
def isPre : List Char → List Char → Bool
  | [], _ => true
  | _ :: _, [] => false
  | a :: as, b :: bs => a == b && isPre as bs

/-- List-level substring test: Python `needle in hay`. -/
def isSub (n : List Char) : List Char → Bool
  | [] => isPre n []
  | c :: t => isPre n (c :: t) || isSub n t

/-- `s.startswith(pre)` on strings. -/
def pyStartsWith (s pre : String) : Bool :=
  isPre pre.data s.data

/-- Python `sub in s` on strings. -/
def pyIn (sub s : String) : Bool :=
  isSub sub.data s.data

/-- Helper of `pyReplace`: replaces non-overlapping occurrences of `pat`
(nonempty) left to right, like Python `str.replace`.  The `Nat` counts
characters of an already-matched occurrence still to be skipped. -/
def replAux (pat rep : List Char) : Nat → List Char → List Char
  | _, [] => []
  | Nat.succ k, _ :: cs => replAux pat rep k cs
  | 0, c :: cs =>
    if isPre pat (c :: cs) then rep ++ replAux pat rep (pat.length - 1) cs
    else c :: replAux pat rep 0 cs

/-- The empty-pattern case of Python `str.replace`: the replacement is
inserted between every pair of characters and at both ends. -/
def pyReplaceEmpty (rep : List Char) : List Char → List Char
  | [] => rep
  | c :: cs => rep ++ c :: pyReplaceEmpty rep cs

/-- Python `s.replace(pat, rep)` (all occurrences, left to right). -/
def pyReplace (s pat rep : List Char) : List Char :=
  if pat = [] then pyReplaceEmpty rep s else replAux pat rep 0 s

/-- Python `s.replace(pat, rep)` on strings. -/
def pyReplaceStr (s pat rep : String) : String :=
  ⟨pyReplace s.data pat.data rep.data⟩

/-- The `.replace("-", "").replace(" ", "")` identifier-stripping used by
`is_isbn` and `calculate_match_score`. -/
def strip_id (s : String) : String :=
  pyReplaceStr (pyReplaceStr s "-" "") " " ""

/-- `is_isbn(query)` from `metadata.py`: empty query is falsy; otherwise strip
hyphens/spaces and test "all digits and length 10 or 13" (`clean.isdigit()`
is false on the empty string, hence the nonemptiness conjunct). -/
def is_isbn (query : String) : Bool :=
  if query = "" then false
  else
    let clean := (strip_id query).data
    (!(clean == []) && clean.all pyIsDigit) &&
      (clean.length == 10 || clean.length == 13)

/-- Python truthiness of an optional string (`None` and `""` are falsy). -/
def otruthy : Option String → Bool
  | none => false
  | some s => !(s == "")

/-- Python `str(x)` applied to the `isbn` field of a candidate dict, whose
value is either `None` or a string (`str(None)` is the string `"None"`). -/
def pyStrOfIsbn : Option String → String
  | none => "None"
  | some s => s

/-- Python `", ".join(xs)` and friends. -/
def pyJoin (sep : String) : List String → String
  | [] => ""
  | [x] => x
  | x :: xs => x ++ sep ++ pyJoin sep xs

/-! ## Data model -/

/-- The candidate dict built by `search_google` / `search_open_library`
(pre-scoring fields only).  `isbn`/`olid` can be `None`, hence `Option`;
`rating` is unused by the scoring logic and kept as an `Int`. -/
structure Book where
  source : String
  source_id : String
  title : String
  author : String
  year : String
  cover : String
  pages : Int
  summary : String
  genres : String
  rating : Int
  isbn : Option String
  olid : Option String
deriving DecidableEq, Repr

/-- A candidate dict after the `match_score` / `content_score` /
`rank_score` / `score` keys have been added. -/
structure ScoredBook where
  book : Book
  match_score : Int
  content_score : Int
  rank_score : Int
  score : Int
deriving DecidableEq, Repr

/-! ## Scoring (`calculate_match_score`, `calculate_content_score`) -/

/-- The "cheat code" branch of `calculate_match_score`: `match_isbn` is
truthy, and after stripping hyphens/spaces from it and from
`str(book.get('isbn', ''))` the target is nonempty and the two agree. -/
def oracle_hit (book : Book) (match_isbn : Option String) : Bool :=
  match match_isbn with
  | none => false
  | some mi =>
    if mi = "" then false
    else
      let clean_target := strip_id mi
      let book_isbn := strip_id (pyStrOfIsbn book.isbn)
      !(clean_target == "") && clean_target == book_isbn

/-- The "query is ISBN" branch of `calculate_match_score`. -/
def isbn_query_hit (book : Book) (query : String) : Bool :=
  is_isbn query && strip_id query == strip_id (pyStrOfIsbn book.isbn)

/-- The title-matching `if/elif` chain of `calculate_match_score`: the first
applicable rule decides the title contribution. -/
def title_tier (t_norm q_norm : String) : Int :=
  if t_norm = q_norm then 60
  else if pyStartsWith t_norm (q_norm ++ " ") then 55
  else if pyStartsWith q_norm (t_norm ++ " ") then 55
  else if pyStartsWith t_norm q_norm || pyStartsWith q_norm t_norm then 40
  else if pyIn q_norm t_norm then 20
  else 0

/-- The author-matching `if/elif` of `calculate_match_score` (+30 when the
normalized author is truthy and one of author/query contains the other). -/
def author_bonus (a_norm q_norm : String) : Int :=
  if !(a_norm == "") && pyIn a_norm q_norm then 30
  else if !(a_norm == "") && pyIn q_norm a_norm then 30
  else 0

/-- `calculate_match_score(book, query, match_isbn)`: the two short-circuit
returns, then title tier plus author bonus, capped by `min(score, 100)`. -/
def calculate_match_score (book : Book) (query : String)
    (match_isbn : Option String) : Int :=
  let q_norm := normalize_text query
  let t_norm := normalize_text book.title
  let a_norm := normalize_text book.author
  if oracle_hit book match_isbn then 100
  else if isbn_query_hit book query then 100
  else min (title_tier t_norm q_norm + author_bonus a_norm q_norm) 100

/-- `calculate_content_score(book)`: signed adjustments, then
`max(0, min(score, 100))`. -/
def calculate_content_score (book : Book) : Int :=
  let s1 : Int := if book.cover ≠ "" ∧ pyIn "placeholder" book.cover = false then 30 else 0
  let s2 : Int :=
    if book.summary ≠ "" ∧ 50 < book.summary.data.length then 30
    else if book.summary = "" then -10 else 0
  let clean_title := normalize_text book.title
  let clean_author := normalize_text book.author
  let s3 : Int :=
    if 3 < clean_author.data.length ∧
        (pyIn clean_author clean_title = true ∨ pyIn clean_title clean_author = true) then -40
    else if book.author ≠ "Unknown" then 10 else 0
  let s4 : Int := if book.year ≠ "" then 10 else 0
  let s5 : Int := if book.pages = 0 then -50 else if book.pages < 50 then -15 else 20
  let s6 : Int := if otruthy book.isbn then 5 else 0
  max 0 (min (s1 + s2 + s3 + s4 + s5 + s6) 100)

/-- The `--- CALCULATE SCORES ---` block shared by both search functions:
attach `match_score`, `content_score`, `rank_score` and `score` to a book
(`int()` on a Python int is the identity). -/
def scoreBook (query : String) (match_isbn : Option String) (b : Book) : ScoredBook :=
  let raw_match := calculate_match_score b query match_isbn
  let raw_content := calculate_content_score b
  let final_score := raw_match + raw_content
  ⟨b, raw_match, raw_content, final_score, final_score⟩

/-! ## Provider: `search_google`

The network is external: a run of `search_google` is determined by the list
of responses (one per issued strategy) that `asyncio.gather(...,
return_exceptions=True)` hands back.  A raised `httpx` exception appears as
`failed`; an HTTP response carries its status code and a body.  A body on
which `resp.json()` raises is `malformed` — note that in the source that
call sits outside any `try`, so it aborts `search_google` itself, which the
model renders as `Except.error`. -/

/-- One `type`/`identifier` entry of `volumeInfo.industryIdentifiers`
(`type` is spelled `idType` here because of the Lean keyword). -/
structure GIdent where
  idType : String
  identifier : String
deriving DecidableEq, Repr

/-- The `imageLinks` object of a Google volume. -/
structure GImageLinks where
  thumbnail : Option String
  smallThumbnail : Option String
deriving DecidableEq, Repr

/-- The consumed fields of `volumeInfo`; a missing key is `none`. -/
structure GVolumeInfo where
  title : Option String
  authors : Option (List String)
  publishedDate : Option String
  imageLinks : Option GImageLinks
  pageCount : Option Int
  description : Option String
  categories : Option (List String)
  averageRating : Option Int
  industryIdentifiers : Option (List GIdent)
deriving DecidableEq, Repr

/-- One element of `data["items"]` (`item["id"]` is accessed unconditionally
by the source, so `id` is a plain field). -/
structure GItem where
  id : String
  volumeInfo : Option GVolumeInfo
deriving DecidableEq, Repr

/-- The `{}` default of `item.get("volumeInfo", {})`. -/
def emptyGVol : GVolumeInfo :=
  ⟨none, none, none, none, none, none, none, none, none⟩

/-- Body of one Google HTTP response: `malformed` when `resp.json()` raises,
otherwise the parsed object (`none` = no `"items"` key). -/
inductive GBody where
  | malformed : GBody
  | parsed : Option (List GItem) → GBody
deriving DecidableEq, Repr

/-- One element of the `asyncio.gather` result inside `search_google`. -/
inductive GResponse where
  | failed : GResponse
  | http : Nat → GBody → GResponse
deriving DecidableEq, Repr

/-- Cover-URL construction of `search_google`: thumbnail, falling back to
smallThumbnail, forced to https, stripped of `&edge=curl`, `zoom=1`
rewritten to `zoom=0`, placeholder when empty. -/
def googleCover (vol : GVolumeInfo) : String :=
  let links := vol.imageLinks.getD ⟨none, none⟩
  let thumb := links.thumbnail.getD ""
  let raw_cover := if thumb ≠ "" then thumb else links.smallThumbnail.getD ""
  let cover :=
    pyReplaceStr (pyReplaceStr (pyReplaceStr raw_cover "http://" "https://")
      "&edge=curl" "") "zoom=1" "zoom=0"
  if cover = "" then "/static/placeholder.png" else cover

/-- The identifier loop of `search_google`: `isbn` is overwritten by every
`ISBN_13` entry (there is no `break`), so the last one wins. -/
def googleIsbn (vol : GVolumeInfo) : Option String :=
  (vol.industryIdentifiers.getD []).foldl
    (fun acc i => if i.idType = "ISBN_13" then some i.identifier else acc) none

/-- The candidate dict built for one Google item. -/
def bookOfGItem (it : GItem) : Book :=
  let vol := it.volumeInfo.getD emptyGVol
  { source := "Google"
    source_id := it.id
    title := vol.title.getD "Unknown"
    author := pyJoin ", " (vol.authors.getD ["Unknown"])
    year := ⟨(vol.publishedDate.getD "").data.take 4⟩
    cover := googleCover vol
    pages := vol.pageCount.getD 0
    summary := vol.description.getD ""
    genres := pyJoin ", " (vol.categories.getD [])
    rating := vol.averageRating.getD 0
    isbn := googleIsbn vol
    olid := none }

/-- Body of the per-item loop of `search_google`: skip items whose id was
already seen, otherwise record the id and append the scored candidate. -/
def googleStep (query : String) (mi : Option String)
    (st : List String × List ScoredBook) (it : GItem) :
    List String × List ScoredBook :=
  if st.1.contains it.id then st
  else (it.id :: st.1, st.2 ++ [scoreBook query mi (bookOfGItem it)])

/-- The response loop of `search_google`.  `seen` is the `seen_ids` set,
`acc` the `results` list.  A 200 response with an unparseable body raises
out of the function (`Except.error`), exactly as the uncaught `resp.json()`
does in the source. -/
def searchGoogleAux (query : String) (mi : Option String) :
    List String → List ScoredBook → List GResponse → Except Unit (List ScoredBook)
  | _, acc, [] => Except.ok acc
  | seen, acc, r :: rs =>
    match r with
    | GResponse.failed => searchGoogleAux query mi seen acc rs
    | GResponse.http code body =>
      if code ≠ 200 then searchGoogleAux query mi seen acc rs
      else
        match body with
        | GBody.malformed => Except.error ()
        | GBody.parsed none => searchGoogleAux query mi seen acc rs
        | GBody.parsed (some items) =>
          let st := items.foldl (googleStep query mi) (seen, acc)
          searchGoogleAux query mi st.1 st.2 rs

/-- `search_google(client, query, match_isbn)` as a function of the
responses received for its strategies. -/
def searchGoogle (resps : List GResponse) (query : String)
    (mi : Option String) : Except Unit (List ScoredBook) :=
  searchGoogleAux query mi [] [] resps

/-- The query strategies issued by `search_google`. -/
def googleStrategies (query : String) : List String :=
  if is_isbn query then ["isbn:" ++ strip_id query]
  else [query, "intitle:" ++ query]

/-! ## Provider: `search_open_library` -/

/-- The consumed fields of one element of `data["docs"]`. -/
structure OLDoc where
  key : Option String
  cover_i : Option Nat
  isbn : Option (List String)
  author_name : Option (List String)
  title : Option String
  first_publish_year : Option Int
  number_of_pages_median : Option Int
  subject : Option (List String)
deriving DecidableEq, Repr

/-- Body of the OpenLibrary HTTP response (`none` = no `"docs"` key). -/
inductive OLBody where
  | malformed : OLBody
  | parsed : Option (List OLDoc) → OLBody
deriving DecidableEq, Repr

/-- The single OpenLibrary HTTP exchange. -/
inductive OLResponse where
  | failed : OLResponse
  | http : Nat → OLBody → OLResponse
deriving DecidableEq, Repr

/-- `item.get("isbn", [None])[0]`: a missing key yields `None`; a present
but empty list raises `IndexError` (caught by the enclosing `except`, which
makes the function return the results accumulated so far). -/
def olIsbnOf : Option (List String) → Except Unit (Option String)
  | none => Except.ok none
  | some [] => Except.error ()
  | some (s :: _) => Except.ok (some s)

/-- Cover synthesis of `search_open_library` (`cover_i` equal to `0` is
falsy in Python and also falls back to the placeholder). -/
def olCover (d : OLDoc) : String :=
  match d.cover_i with
  | some cid =>
    if cid ≠ 0 then "https://covers.openlibrary.org/b/id/" ++ toString cid ++ "-M.jpg"
    else "/static/placeholder.png"
  | none => "/static/placeholder.png"

/-- The candidate dict built for one OpenLibrary doc (given the already
extracted `isbn`). -/
def bookOfOLDoc (d : OLDoc) (isbn : Option String) : Book :=
  { source := "OpenLibrary"
    source_id := pyReplaceStr (d.key.getD "") "/works/" ""
    title := d.title.getD "Unknown"
    author := pyJoin ", " ((d.author_name.getD ["Unknown"]).take 2)
    year := match d.first_publish_year with
            | some y => toString y
            | none => ""
    cover := olCover d
    pages := d.number_of_pages_median.getD 0
    summary := ""
    genres := pyJoin ", " ((d.subject.getD []).take 3)
    rating := 0
    isbn := isbn
    olid := some (pyReplaceStr (d.key.getD "") "/works/" "") }

/-- The docs loop of `search_open_library`; an `IndexError` on the isbn
access is caught by the function's `except` and stops the loop, returning
the partial `results`. -/
def olLoop (query : String) (mi : Option String) (acc : List ScoredBook) :
    List OLDoc → List ScoredBook
  | [] => acc
  | d :: ds =>
    match olIsbnOf d.isbn with
    | Except.error _ => acc
    | Except.ok isbn =>
      olLoop query mi (acc ++ [scoreBook query mi (bookOfOLDoc d isbn)]) ds

/-- `search_open_library(client, query, match_isbn)` as a function of its
single response.  Every failure path (network exception, non-200 status,
unparseable body) yields `[]`; the whole body is wrapped in `try/except`,
so the function never raises — its result type is a plain list. -/
def searchOpenLibrary (r : OLResponse) (query : String)
    (mi : Option String) : List ScoredBook :=
  match r with
  | OLResponse.failed => []
  | OLResponse.http code body =>
    if code ≠ 200 then []
    else
      match body with
      | OLBody.malformed => []
      | OLBody.parsed none => []
      | OLBody.parsed (some docs) => olLoop query mi [] docs

/-! ## Aggregator: `search_aggregated` -/

/-- `MATCH_THRESHOLD` from the configuration section. -/
def MATCH_THRESHOLD : Int := 40

/-- Stable descending insertion step: a new element goes after every
already-placed element of greater-or-equal score. -/
def insertDesc (b : ScoredBook) : List ScoredBook → List ScoredBook
  | [] => [b]
  | c :: cs => if b.score ≤ c.score then c :: insertDesc b cs else b :: c :: cs

/-- `filtered.sort(key=lambda x: x['score'], reverse=True)`.  Python's sort
is stable; a stable descending sort is uniquely determined by its input, so
this insertion sort computes exactly the list the source produces. -/
def sortByScoreDesc (l : List ScoredBook) : List ScoredBook :=
  l.foldl (fun acc b => insertDesc b acc) []

/-- The pure tail of `search_aggregated`: merge (Google first, then
OpenLibrary), filter by `MATCH_THRESHOLD`, stable-sort descending. -/
def search_aggregated (g_results ol_results : List ScoredBook) : List ScoredBook :=
  let combined := g_results ++ ol_results
  let filtered := combined.filter (fun b => decide (MATCH_THRESHOLD ≤ b.match_score))
  sortByScoreDesc filtered

/-- A full `search_aggregated(query, match_isbn)` call as a function of the
providers' responses.  An exception escaping `search_google` propagates
through the bare `asyncio.gather` of the aggregator and out to the caller
(`Except.error`). -/
def resolve (gresps : List GResponse) (olresp : OLResponse) (query : String)
    (match_isbn : Option String) : Except Unit (List ScoredBook) :=
  match searchGoogle gresps query match_isbn with
  | Except.error e => Except.error e
  | Except.ok g =>
    Except.ok (search_aggregated g (searchOpenLibrary olresp query match_isbn))

/-! ## Facts about the normalizer -/

/-- The characters `normalize_text` can emit: lowercase-stable ASCII
alphanumerics, or the separating space. -/
def goodChar (c : Char) : Prop :=
  (isAsciiAlnum c = true ∧ pyLower c = c) ∨ c = ' '

theorem alnum_lt_128 {c : Char} (h : isAsciiAlnum c = true) : c.toNat < 128 := by
  simp only [isAsciiAlnum, Bool.or_eq_true, Bool.and_eq_true, decide_eq_true_eq] at h
  omega

theorem alnum_not_space {c : Char} (h : isAsciiAlnum c = true) :
    isAsciiSpace c = false := by
  simp only [isAsciiAlnum, Bool.or_eq_true, Bool.and_eq_true, decide_eq_true_eq] at h
  simp only [isAsciiSpace, Bool.or_eq_true, Bool.and_eq_true, decide_eq_true_eq,
    beq_iff_eq, Bool.eq_false_iff, ne_eq, not_or, not_and]
  omega

theorem space_lt_128 {c : Char} (h : isAsciiSpace c = true) : c.toNat < 128 := by
  simp only [isAsciiSpace, Bool.or_eq_true, Bool.and_eq_true, decide_eq_true_eq,
    beq_iff_eq] at h
  omega

theorem nfkd_of_lt {c : Char} (h : c.toNat < 128) : nfkdAscii c = [c] := by
  unfold nfkdAscii; rw [if_pos h]

/-- The 26 possible non-identity outputs of `pyLower`. -/
def lowerChars : List Char :=
  ['a', 'b', 'c', 'd', 'e', 'f', 'g', 'h', 'i', 'j', 'k', 'l', 'm',
   'n', 'o', 'p', 'q', 'r', 's', 't', 'u', 'v', 'w', 'x', 'y', 'z']

theorem pyLower_out (c : Char) : pyLower c = c ∨ pyLower c ∈ lowerChars := by
  unfold pyLower
  cases hf : lowerTable.find? (fun p => p.1 == c) with
  | none => left; rfl
  | some p =>
    right
    have hmem : p ∈ lowerTable := List.mem_of_find?_eq_some hf
    show p.2 ∈ lowerChars
    have hall : ∀ q ∈ lowerTable, q.2 ∈ lowerChars := by decide
    exact hall p hmem

theorem pyLower_fix_lower : ∀ d ∈ lowerChars, pyLower d = d := by decide

theorem pyLower_idem (c : Char) : pyLower (pyLower c) = pyLower c := by
  rcases pyLower_out c with h | h
  · simp only [h]
  · exact pyLower_fix_lower _ h

theorem mem_cleanChars {c : Char} {l : List Char} (h : c ∈ cleanChars l) :
    (isAsciiAlnum c = true ∨ isAsciiSpace c = true) ∧ pyLower c = c := by
  unfold cleanChars at h
  rcases List.mem_filter.mp h with ⟨hm, hp⟩
  constructor
  · simpa only [Bool.or_eq_true] using hp
  · rcases List.mem_map.mp hm with ⟨c₀, _, rfl⟩
    exact pyLower_idem c₀

theorem goodChar_lt_128 {c : Char} (h : goodChar c) : c.toNat < 128 := by
  rcases h with ⟨ha, _⟩ | rfl
  · exact alnum_lt_128 ha
  · decide

theorem goodChar_lower_fix {c : Char} (h : goodChar c) : pyLower c = c := by
  rcases h with ⟨_, hf⟩ | rfl
  · exact hf
  · decide

theorem goodChar_pass {c : Char} (h : goodChar c) :
    (isAsciiAlnum c || isAsciiSpace c) = true := by
  rcases h with ⟨ha, _⟩ | rfl
  · simp [ha]
  · decide

theorem asciiFold_id {m : List Char} (h : ∀ c ∈ m, c.toNat < 128) :
    asciiFold m = m := by
  induction m with
  | nil => rfl
  | cons c cs ih =>
    unfold asciiFold
    rw [nfkd_of_lt (h c (by simp)), ih (fun d hd => h d (by simp [hd]))]
    rfl

theorem map_pyLower_id {m : List Char} (h : ∀ c ∈ m, pyLower c = c) :
    m.map pyLower = m := by
  induction m with
  | nil => rfl
  | cons c cs ih =>
    simp only [List.map_cons, h c (by simp), ih (fun d hd => h d (by simp [hd]))]

theorem cleanChars_id {m : List Char} (h : ∀ c ∈ m, goodChar c) :
    cleanChars m = m := by
  unfold cleanChars
  rw [asciiFold_id (fun c hc => goodChar_lt_128 (h c hc)),
    map_pyLower_id (fun c hc => goodChar_lower_fix (h c hc))]
  exact List.filter_eq_self.mpr (fun c hc => goodChar_pass (h c hc))

theorem splitAux_mem (p : Char → Prop) :
    ∀ (l acc : List Char), (∀ c ∈ acc, p c ∧ isAsciiSpace c = false) →
      (∀ c ∈ l, isAsciiSpace c = false → p c) →
      ∀ w ∈ pySplitAux acc l, w ≠ [] ∧ ∀ c ∈ w, p c ∧ isAsciiSpace c = false := by
  intro l
  induction l with
  | nil =>
    intro acc hacc _ w hw
    unfold pySplitAux at hw
    by_cases h : acc = []
    · simp [h] at hw
    · rw [if_neg h] at hw
      rcases List.mem_singleton.mp hw with rfl
      refine ⟨by simpa using h, fun c hc => hacc c (List.mem_reverse.mp hc)⟩
  | cons c cs ih =>
    intro acc hacc hl w hw
    unfold pySplitAux at hw
    by_cases hsp : isAsciiSpace c = true
    · rw [if_pos hsp] at hw
      by_cases h : acc = []
      · rw [if_pos h] at hw
        exact ih [] (by simp) (fun d hd hnd => hl d (by simp [hd]) hnd) w hw
      · rw [if_neg h] at hw
        rcases List.mem_cons.mp hw with rfl | hw'
        · refine ⟨by simpa using h, fun d hd => hacc d (List.mem_reverse.mp hd)⟩
        · exact ih [] (by simp) (fun d hd hnd => hl d (by simp [hd]) hnd) w hw'
    · rw [if_neg hsp] at hw
      refine ih (c :: acc) ?_ (fun d hd hnd => hl d (by simp [hd]) hnd) w hw
      intro d hd
      rcases List.mem_cons.mp hd with rfl | hd'
      · exact ⟨hl d (by simp) (by simpa using hsp), by simpa using hsp⟩
      · exact hacc d hd'

theorem splitAux_word :
    ∀ (w : List Char), (∀ c ∈ w, isAsciiSpace c = false) →
      ∀ (acc r : List Char), pySplitAux acc (w ++ r) = pySplitAux (w.reverse ++ acc) r := by
  intro w
  induction w with
  | nil => intro _ acc r; simp
  | cons c w' ih =>
    intro h acc r
    have hc : isAsciiSpace c = false := h c (by simp)
    have e1 : pySplitAux acc ((c :: w') ++ r) = pySplitAux (c :: acc) (w' ++ r) := by
      show pySplitAux acc (c :: (w' ++ r)) = _
      simp [pySplitAux, hc]
    rw [e1, ih (fun d hd => h d (by simp [hd])) (c :: acc) r]
    simp [List.append_assoc]

theorem split_join (ws : List (List Char))
    (h : ∀ w ∈ ws, w ≠ [] ∧ ∀ c ∈ w, isAsciiSpace c = false) :
    pySplitAux [] (joinSpace ws) = ws := by
  induction ws with
  | nil => rfl
  | cons w rest ih =>
    rcases h w (by simp) with ⟨hw, hwc⟩
    cases rest with
    | nil =>
      show pySplitAux [] (joinSpace [w]) = [w]
      have hjw : joinSpace [w] = w ++ [] := by simp [joinSpace]
      rw [hjw, splitAux_word w hwc [] []]
      unfold pySplitAux
      rw [if_neg (by simpa using hw)]
      simp
    | cons r rs =>
      have hjs : joinSpace (w :: r :: rs) = w ++ ' ' :: joinSpace (r :: rs) := rfl
      rw [hjs, splitAux_word w hwc [] (' ' :: joinSpace (r :: rs))]
      unfold pySplitAux
      rw [if_pos (by decide)]
      rw [if_neg (by simpa using hw)]
      rw [ih (fun w' hw' => h w' (by simp [hw']))]
      simp

theorem mem_joinSpace {c : Char} :
    ∀ {ws : List (List Char)}, c ∈ joinSpace ws → (∃ w ∈ ws, c ∈ w) ∨ c = ' ' := by
  intro ws
  induction ws with
  | nil => intro h; simp [joinSpace] at h
  | cons w rest ih =>
    cases rest with
    | nil =>
      intro h
      exact Or.inl ⟨w, by simp, by simpa [joinSpace] using h⟩
    | cons r rs =>
      intro h
      rw [show joinSpace (w :: r :: rs) = w ++ ' ' :: joinSpace (r :: rs) from rfl] at h
      rcases List.mem_append.mp h with h1 | h2
      · exact Or.inl ⟨w, by simp, h1⟩
      · rcases List.mem_cons.mp h2 with rfl | h3
        · exact Or.inr rfl
        · rcases ih h3 with ⟨w', hw', hc⟩ | hsp
          · exact Or.inl ⟨w', by simp [hw'], hc⟩
          · exact Or.inr hsp

theorem clean_words_good {l : List Char} :
    ∀ w ∈ pySplitAux [] (cleanChars l),
      w ≠ [] ∧ ∀ c ∈ w, (isAsciiAlnum c = true ∧ pyLower c = c) ∧ isAsciiSpace c = false := by
  refine splitAux_mem (fun c => isAsciiAlnum c = true ∧ pyLower c = c)
    (cleanChars l) [] (by simp) ?_
  intro d hd hnd
  rcases mem_cleanChars hd with ⟨ha | hs, hf⟩
  · exact ⟨ha, hf⟩
  · rw [hs] at hnd; exact absurd hnd (by simp)

theorem normList_good {l : List Char} : ∀ c ∈ normList l, goodChar c := by
  intro c hc
  unfold normList at hc
  rcases mem_joinSpace hc with ⟨w, hw, hcw⟩ | rfl
  · exact Or.inl ((clean_words_good w hw).2 c hcw).1
  · exact Or.inr rfl

theorem normList_idem (l : List Char) : normList (normList l) = normList l := by
  have h1 : cleanChars (normList l) = normList l := cleanChars_id normList_good
  have hwords : ∀ w ∈ pySplitAux [] (cleanChars l),
      w ≠ [] ∧ ∀ c ∈ w, isAsciiSpace c = false := by
    intro w hw
    rcases clean_words_good w hw with ⟨hne, hall⟩
    exact ⟨hne, fun c hc => (hall c hc).2⟩
  show joinSpace (pySplitAux [] (cleanChars (normList l))) = normList l
  rw [h1]
  show joinSpace (pySplitAux [] (joinSpace (pySplitAux [] (cleanChars l)))) = _
  rw [split_join _ hwords]
  rfl

theorem joinSpace_cons_head :
    ∀ (ws : List (List Char)) (c : Char) (cs : List Char), (∀ w ∈ ws, w ≠ []) →
      joinSpace ws = c :: cs → ∃ w ∈ ws, c ∈ w := by
  intro ws
  induction ws with
  | nil => intro c cs _ h; simp [joinSpace] at h
  | cons w rest _ =>
    intro c cs hne h
    have hw : w ≠ [] := hne w (by simp)
    cases rest with
    | nil =>
      refine ⟨w, by simp, ?_⟩
      rw [show joinSpace [w] = w from rfl] at h
      rw [h]; simp
    | cons r rs =>
      rw [show joinSpace (w :: r :: rs) = w ++ ' ' :: joinSpace (r :: rs) from rfl] at h
      cases w with
      | nil => exact absurd rfl hw
      | cons d w' =>
        refine ⟨d :: w', by simp, ?_⟩
        have : d = c := by simpa using congrArg (fun t => t.headD ' ') h
        simp [this]

theorem normalize_head_not_space (s : String) {c : Char} {cs : List Char}
    (h : (normalize_text s).data = c :: cs) : isAsciiSpace c = false := by
  by_cases hs : s = ""
  · rw [hs, show normalize_text "" = "" from rfl] at h
    have h' : ([] : List Char) = c :: cs := h
    exact List.noConfusion h'
  · rw [normalize_text, if_neg hs] at h
    have hwords := clean_words_good (l := s.data)
    rcases joinSpace_cons_head _ c cs (fun w hw => (hwords w hw).1) h with ⟨w, hw, hcw⟩
    exact ((hwords w hw).2 c hcw).2

theorem normalize_text_idem (x : String) :
    normalize_text (normalize_text x) = normalize_text x := by
  by_cases hx : x = ""
  · rw [hx]; rfl
  · have hx1 : normalize_text x = ⟨normList x.data⟩ := by
      rw [normalize_text, if_neg hx]
    rw [hx1]
    by_cases ht : (⟨normList x.data⟩ : String) = ""
    · rw [normalize_text, if_pos ht]; exact ht.symm
    · rw [normalize_text, if_neg ht]
      exact congrArg String.mk (normList_idem x.data)

/-! ## Facts about the stable sort of `search_aggregated` -/

/-- Non-increasing by `score` (the sort key used in the source). -/
def SortedDesc (l : List ScoredBook) : Prop :=
  List.Pairwise (fun a b => b.score ≤ a.score) l

theorem mem_insertDesc {a b : ScoredBook} :
    ∀ {l : List ScoredBook}, a ∈ insertDesc b l ↔ a = b ∨ a ∈ l := by
  intro l
  induction l with
  | nil => simp [insertDesc]
  | cons c cs ih =>
    unfold insertDesc
    by_cases h : b.score ≤ c.score
    · rw [if_pos h]
      simp only [List.mem_cons, ih]
      tauto
    · rw [if_neg h]
      simp only [List.mem_cons]

theorem insertDesc_sorted {b : ScoredBook} :
    ∀ {l : List ScoredBook}, SortedDesc l → SortedDesc (insertDesc b l) := by
  intro l
  induction l with
  | nil => intro _; simp [insertDesc, SortedDesc]
  | cons c cs ih =>
    intro h
    rcases List.pairwise_cons.mp h with ⟨hc, hcs⟩
    unfold insertDesc
    by_cases hb : b.score ≤ c.score
    · rw [if_pos hb]
      refine List.pairwise_cons.mpr ⟨?_, ih hcs⟩
      intro x hx
      rcases mem_insertDesc.mp hx with rfl | hx'
      · exact hb
      · exact hc x hx'
    · rw [if_neg hb]
      refine List.pairwise_cons.mpr ⟨?_, h⟩
      intro x hx
      rcases List.mem_cons.mp hx with rfl | hx'
      · omega
      · have := hc x hx'; omega

theorem filter_insertDesc {b : ScoredBook} (s : Int) :
    ∀ {l : List ScoredBook}, SortedDesc l →
      (insertDesc b l).filter (fun x => x.score == s) =
        if b.score = s then l.filter (fun x => x.score == s) ++ [b]
        else l.filter (fun x => x.score == s) := by
  intro l
  induction l with
  | nil =>
    intro _
    by_cases hb : b.score = s <;> simp [insertDesc, List.filter_cons, hb]
  | cons c cs ih =>
    intro h
    rcases List.pairwise_cons.mp h with ⟨hc, hcs⟩
    unfold insertDesc
    by_cases hb : b.score ≤ c.score
    · rw [if_pos hb]
      rw [List.filter_cons, List.filter_cons, ih hcs]
      by_cases hbs : b.score = s <;> by_cases hcq : c.score = s <;>
        simp [hbs, hcq]
    · rw [if_neg hb]
      by_cases hbs : b.score = s
      · have hnil : (c :: cs).filter (fun x => x.score == s) = [] := by
          rw [List.filter_eq_nil_iff]
          intro x hx
          have hxc : x.score ≤ c.score := by
            rcases List.mem_cons.mp hx with rfl | hx'
            · exact le_refl _
            · exact hc x hx'
          simp only [beq_iff_eq]
          omega
        simp [List.filter_cons, hbs, hnil]
      · simp [List.filter_cons, hbs]

theorem sortAux_sorted :
    ∀ (l acc : List ScoredBook), SortedDesc acc →
      SortedDesc (l.foldl (fun a b => insertDesc b a) acc) := by
  intro l
  induction l with
  | nil => intro acc h; simpa using h
  | cons b bs ih =>
    intro acc h
    rw [List.foldl_cons]
    exact ih _ (insertDesc_sorted h)

theorem sortAux_filter (s : Int) :
    ∀ (l acc : List ScoredBook), SortedDesc acc →
      (l.foldl (fun a b => insertDesc b a) acc).filter (fun x => x.score == s) =
        acc.filter (fun x => x.score == s) ++ l.filter (fun x => x.score == s) := by
  intro l
  induction l with
  | nil => intro acc _; simp
  | cons b bs ih =>
    intro acc h
    rw [List.foldl_cons, ih _ (insertDesc_sorted h), filter_insertDesc s h]
    by_cases hbs : b.score = s <;> simp [List.filter_cons, hbs]

theorem sort_sorted (l : List ScoredBook) : SortedDesc (sortByScoreDesc l) :=
  sortAux_sorted l [] (by simp [SortedDesc])

theorem sort_filter (l : List ScoredBook) (s : Int) :
    (sortByScoreDesc l).filter (fun x => x.score == s) =
      l.filter (fun x => x.score == s) := by
  have := sortAux_filter s l [] (by simp [SortedDesc])
  simpa [sortByScoreDesc] using this

theorem mem_sortAux :
    ∀ (l acc : List ScoredBook) (a : ScoredBook),
      a ∈ l.foldl (fun a b => insertDesc b a) acc ↔ a ∈ acc ∨ a ∈ l := by
  intro l
  induction l with
  | nil => intro acc a; simp
  | cons b bs ih =>
    intro acc a
    rw [List.foldl_cons, ih]
    rw [mem_insertDesc]
    simp only [List.mem_cons]
    tauto

theorem mem_sort {a : ScoredBook} {l : List ScoredBook} :
    a ∈ sortByScoreDesc l ↔ a ∈ l := by
  have := mem_sortAux l [] a
  simpa [sortByScoreDesc] using this

/-! ## Every provider result is a `scoreBook` -/

theorem googleFold_mem (query : String) (mi : Option String)
    (P : ScoredBook → Prop) (hP : ∀ b : Book, P (scoreBook query mi b)) :
    ∀ (items : List GItem) (st : List String × List ScoredBook),
      (∀ x ∈ st.2, P x) →
      ∀ x ∈ (items.foldl (googleStep query mi) st).2, P x := by
  intro items
  induction items with
  | nil => intro st h; simpa using h
  | cons it its ih =>
    intro st h
    rw [List.foldl_cons]
    apply ih
    unfold googleStep
    by_cases hseen : st.1.contains it.id
    · rw [if_pos hseen]; exact h
    · rw [if_neg hseen]
      intro x hx
      rcases List.mem_append.mp hx with hx' | hx''
      · exact h x hx'
      · rcases List.mem_singleton.mp hx'' with rfl
        exact hP _

theorem searchGoogleAux_mem (query : String) (mi : Option String)
    (P : ScoredBook → Prop) (hP : ∀ b : Book, P (scoreBook query mi b)) :
    ∀ (resps : List GResponse) (seen : List String) (acc out : List ScoredBook),
      (∀ x ∈ acc, P x) →
      searchGoogleAux query mi seen acc resps = Except.ok out →
      ∀ x ∈ out, P x := by
  intro resps
  induction resps with
  | nil =>
    intro seen acc out hacc h
    unfold searchGoogleAux at h
    injection h with h'
    exact h' ▸ hacc
  | cons r rs ih =>
    intro seen acc out hacc h
    unfold searchGoogleAux at h
    split at h
    · exact ih _ _ _ hacc h
    · split at h
      · exact ih _ _ _ hacc h
      · split at h
        · exact absurd h (by simp)
        · exact ih _ _ _ hacc h
        · rename_i items
          exact ih _ _ _ (googleFold_mem query mi P hP items (seen, acc) hacc) h

theorem searchGoogle_shape {resps : List GResponse} {query : String}
    {mi : Option String} {g : List ScoredBook}
    (h : searchGoogle resps query mi = Except.ok g) :
    ∀ x ∈ g, ∃ b : Book, x = scoreBook query mi b :=
  searchGoogleAux_mem query mi (fun x => ∃ b, x = scoreBook query mi b)
    (fun b => ⟨b, rfl⟩) resps [] [] g (by simp) h

theorem olLoop_mem (query : String) (mi : Option String)
    (P : ScoredBook → Prop) (hP : ∀ b : Book, P (scoreBook query mi b)) :
    ∀ (ds : List OLDoc) (acc : List ScoredBook),
      (∀ x ∈ acc, P x) → ∀ x ∈ olLoop query mi acc ds, P x := by
  intro ds
  induction ds with
  | nil => intro acc h; simpa [olLoop] using h
  | cons d ds' ih =>
    intro acc h
    unfold olLoop
    cases olIsbnOf d.isbn with
    | error e => exact h
    | ok isbn =>
      apply ih
      intro x hx
      rcases List.mem_append.mp hx with hx' | hx''
      · exact h x hx'
      · rcases List.mem_singleton.mp hx'' with rfl
        exact hP _

theorem searchOpenLibrary_shape (r : OLResponse) (query : String)
    (mi : Option String) :
    ∀ x ∈ searchOpenLibrary r query mi, ∃ b : Book, x = scoreBook query mi b := by
  unfold searchOpenLibrary
  split
  · simp
  · split
    · simp
    · split
      · simp
      · simp
      · rename_i docs
        exact olLoop_mem query mi _ (fun b => ⟨b, rfl⟩) docs [] (by simp)

theorem scoreBook_rank_eq_score (query : String) (mi : Option String) (b : Book) :
    (scoreBook query mi b).rank_score = (scoreBook query mi b).score := rfl

/-! ## Score bounds -/

theorem title_tier_nonneg (t q : String) : 0 ≤ title_tier t q := by
  unfold title_tier; split_ifs <;> norm_num

theorem title_tier_le (t q : String) : title_tier t q ≤ 60 := by
  unfold title_tier; split_ifs <;> norm_num

theorem author_bonus_nonneg (a q : String) : 0 ≤ author_bonus a q := by
  unfold author_bonus; split_ifs <;> norm_num

theorem calculate_match_score_bounds (b : Book) (q : String) (mi : Option String) :
    0 ≤ calculate_match_score b q mi ∧ calculate_match_score b q mi ≤ 100 := by
  unfold calculate_match_score
  by_cases h1 : oracle_hit b mi = true
  · simp [h1]
  · by_cases h2 : isbn_query_hit b q = true
    · simp [h1, h2]
    · simp only [h1, h2, Bool.false_eq_true, if_false]
      constructor
      · exact le_min
          (add_nonneg (title_tier_nonneg _ _) (author_bonus_nonneg _ _)) (by norm_num)
      · exact min_le_right _ _

theorem calculate_content_score_bounds (b : Book) :
    0 ≤ calculate_content_score b ∧ calculate_content_score b ≤ 100 := by
  unfold calculate_content_score
  constructor
  · exact le_max_left _ _
  · exact max_le (by norm_num) (min_le_right _ _)

/-! ## The claims -/

/-- C3: every candidate scored by a provider has `0 ≤ matchScore ≤ 100`,
`0 ≤ contentScore ≤ 100`, and `rankScore = matchScore + contentScore`
exactly (for any book fields, query and optional external identifier). -/
theorem candidate_score_invariants (b : Book) (q : String) (mi : Option String) :
    0 ≤ (scoreBook q mi b).match_score ∧ (scoreBook q mi b).match_score ≤ 100 ∧
    0 ≤ (scoreBook q mi b).content_score ∧ (scoreBook q mi b).content_score ≤ 100 ∧
    (scoreBook q mi b).rank_score =
      (scoreBook q mi b).match_score + (scoreBook q mi b).content_score := by
  rcases calculate_match_score_bounds b q mi with ⟨m1, m2⟩
  rcases calculate_content_score_bounds b with ⟨c1, c2⟩
  exact ⟨m1, m2, c1, c2, rfl⟩

/-- The Dune candidate of the spec's concrete scenario: exact title, author
not contained in the query, a 200-character summary, 412 pages, a real
cover, a year and an identifier. -/
def duneBook : Book :=
  { source := "Google"
    source_id := "dune1"
    title := "Dune"
    author := "Frank Herbert"
    year := "1965"
    cover := "https://books.example.com/dune.jpg"
    pages := 412
    summary := ⟨List.replicate 200 'a'⟩
    genres := "Science Fiction"
    rating := 0
    isbn := some "9780441013593"
    olid := none }

set_option maxRecDepth 8000 in
/-- C8: the concrete scenario — query `"Dune"`, no external id, the fully
populated Dune candidate scores `matchScore = 60`, `contentScore = 100`
(raw 105 clamped), `rankScore = 160`. -/
theorem dune_scenario :
    (scoreBook "Dune" none duneBook).match_score = 60 ∧
    (scoreBook "Dune" none duneBook).content_score = 100 ∧
    (scoreBook "Dune" none duneBook).rank_score = 160 := by
  refine ⟨?_, ?_, ?_⟩ <;> decide

/-- C9: `normalize_text` is total (absent or empty input gives `""`),
idempotent on every string, and strips accents/punctuation as in the spec's
example. -/
theorem normalize_total_idempotent :
    normalize_opt none = "" ∧ normalize_text "" = "" ∧
    (∀ x : String, normalize_text (normalize_text x) = normalize_text x) ∧
    normalize_text "Café — A Novel" = "cafe a novel" :=
  ⟨rfl, rfl, normalize_text_idem, by decide⟩

/-- C6 (code bug): a 200-status Google response whose body is not parseable
JSON makes `search_google` — and hence `search_aggregated` — raise instead
of degrading to an empty contribution; `search_open_library` does absorb
the same failure (and all other failures) into `[]`.  The last conjunct
shows the Google provider does absorb network errors and non-200 statuses. -/
theorem provider_parse_failure_bug :
    searchGoogle [GResponse.http 200 GBody.malformed] "Dune" none = Except.error () ∧
    resolve [GResponse.http 200 GBody.malformed] OLResponse.failed "Dune" none =
      Except.error () ∧
    searchOpenLibrary (OLResponse.http 200 OLBody.malformed) "Dune" none = [] ∧
    searchOpenLibrary OLResponse.failed "Dune" none = [] ∧
    searchOpenLibrary (OLResponse.http 500 (OLBody.parsed none)) "Dune" none = [] ∧
    searchGoogle [GResponse.failed, GResponse.http 500 GBody.malformed] "Dune" none =
      Except.ok [] :=
  ⟨rfl, rfl, rfl, rfl, rfl, rfl⟩

/-- An identifier list with two ISBN_13 entries. -/
def cexIdents : List GIdent :=
  [⟨"ISBN_13", "1111111111111"⟩, ⟨"ISBN_13", "2222222222222"⟩]

/-- A Google item carrying `cexIdents`. -/
def cexGItem : GItem :=
  ⟨"vol1", some { emptyGVol with industryIdentifiers := some cexIdents }⟩

/-- C7 counterexample: the identifier loop has no `break`, so with two
ISBN_13 entries the candidate's isbn is the second (last) one, not the
first as the claim states. -/
theorem google_isbn_not_first :
    ((cexIdents.find? (fun i => i.idType == "ISBN_13")).map (fun i => i.identifier)) =
      some "1111111111111" ∧
    (bookOfGItem cexGItem).isbn = some "2222222222222" ∧
    (bookOfGItem cexGItem).isbn ≠
      ((cexIdents.find? (fun i => i.idType == "ISBN_13")).map (fun i => i.identifier)) :=
  ⟨rfl, rfl, by decide⟩

/-- C7 amended: the candidate's isbn is the identifier value of the *last*
ISBN_13 entry of the item's identifier list (`none` when there is none). -/
theorem google_isbn_last (it : GItem) :
    (bookOfGItem it).isbn =
      ((((it.volumeInfo.getD emptyGVol).industryIdentifiers.getD []).filter
          (fun i => i.idType == "ISBN_13")).map (fun i => i.identifier)).getLast? := by
  show googleIsbn (it.volumeInfo.getD emptyGVol) = _
  unfold googleIsbn
  generalize (it.volumeInfo.getD emptyGVol).industryIdentifiers.getD [] = idents
  induction idents using List.reverseRecOn with
  | nil => rfl
  | append_singleton l x ih =>
    rw [List.foldl_append, List.filter_append, List.map_append]
    by_cases hx : x.idType = "ISBN_13"
    · simp [hx, List.getLast?_concat]
    · simp [hx, ih]

/-- The candidate of the C4 counterexample: its isbn is the empty string,
which also strips to the empty string. -/
def cexBook4 : Book :=
  ⟨"Google", "x", "", "", "", "", 0, "", "", 0, some "", none⟩

/-- C4 counterexample: the external identifier `"-"` is non-empty and strips
to `""`, equal to the stripped identifier of `cexBook4`, yet the score is 60
(the `if clean_target` guard skips the override when the *stripped* target
is empty), not 100 as the claim requires. -/
theorem oracle_empty_strip_cex :
    strip_id "-" = strip_id (pyStrOfIsbn cexBook4.isbn) ∧ ("-" : String) ≠ "" ∧
    calculate_match_score cexBook4 "" (some "-") = 60 ∧
    calculate_match_score cexBook4 "" (some "-") ≠ 100 :=
  ⟨rfl, by decide, rfl, by decide⟩

/-- C4 amended: if the supplied external identifier strips to a *non-empty*
string equal to the candidate's stripped identifier, the match score is
exactly 100, regardless of title, author or query. -/
theorem oracle_override (b : Book) (q : String) (s : String)
    (h1 : strip_id s ≠ "") (h2 : strip_id s = strip_id (pyStrOfIsbn b.isbn)) :
    calculate_match_score b q (some s) = 100 := by
  have hs : s ≠ "" := by
    intro h
    rw [h] at h1
    exact h1 rfl
  have hhit : oracle_hit b (some s) = true := by
    show (if s = "" then false
          else !(strip_id s == "") && (strip_id s == strip_id (pyStrOfIsbn b.isbn))) = true
    rw [if_neg hs]
    rw [h2] at h1 ⊢
    simp [h1]
  unfold calculate_match_score
  simp [hhit]

/-- The candidate used by the C4 amended witness. -/
def witBook4 : Book :=
  ⟨"Google", "x", "Unrelated", "Someone", "", "", 0, "", "", 0,
    some "9-78-0441013593", none⟩

/-- Witness for the amended C4 at a concrete input. -/
theorem oracle_override_witness :
    strip_id "978 0441-013593" ≠ "" ∧
    strip_id "978 0441-013593" = strip_id (pyStrOfIsbn witBook4.isbn) ∧
    calculate_match_score witBook4 "another query" (some "978 0441-013593") = 100 :=
  ⟨by decide, by decide,
    oracle_override witBook4 "another query" "978 0441-013593" (by decide) (by decide)⟩

/-- C5: with no external identifier and a non-identifier query, if one of
normalized title / normalized query is a word-bounded prefix of the other
and they are not equal, the title contribution is 55 — the `elif` chain
never falls through to the 40 or 20 rules. -/
theorem bounded_prefix_tier (b : Book) (q : String) (mi : Option String)
    (horacle : oracle_hit b mi = false)
    (hq : is_isbn q = false)
    (hne : normalize_text b.title ≠ normalize_text q)
    (hpre : pyStartsWith (normalize_text b.title) (normalize_text q ++ " ") = true ∨
            pyStartsWith (normalize_text q) (normalize_text b.title ++ " ") = true) :
    calculate_match_score b q mi =
      min (55 + author_bonus (normalize_text b.author) (normalize_text q)) 100 := by
  have hhit : isbn_query_hit b q = false := by
    unfold isbn_query_hit
    rw [hq]
    rfl
  have htier : title_tier (normalize_text b.title) (normalize_text q) = 55 := by
    unfold title_tier
    rw [if_neg hne]
    by_cases hA : pyStartsWith (normalize_text b.title) (normalize_text q ++ " ") = true
    · rw [if_pos hA]
    · rw [if_neg hA]
      rcases hpre with h | h
      · exact absurd h hA
      · rw [if_pos h]
  unfold calculate_match_score
  simp [horacle, hhit, htier]

/-- The candidate of the C5 witness: title "Dune Messiah" against query
"Dune". -/
def witBook5 : Book :=
  ⟨"Google", "w5", "Dune Messiah", "", "", "", 0, "", "", 0, none, none⟩

/-- Witness for C5 at a concrete input. -/
theorem bounded_prefix_tier_witness :
    oracle_hit witBook5 none = false ∧
    is_isbn "Dune" = false ∧
    normalize_text witBook5.title ≠ normalize_text "Dune" ∧
    calculate_match_score witBook5 "Dune" none =
      min (55 + author_bonus (normalize_text witBook5.author) (normalize_text "Dune"))
        100 :=
  ⟨by decide, by decide, by decide,
    bounded_prefix_tier witBook5 "Dune" none (by decide) (by decide) (by decide)
      (Or.inl (by decide))⟩

/-- C2: `search_aggregated` (with default threshold 40) never returns a
candidate with `match_score < MATCH_THRESHOLD`, and keeps every merged
candidate whose `match_score` reaches the threshold. -/
theorem threshold_filter (g ol : List ScoredBook) :
    MATCH_THRESHOLD = 40 ∧
    (∀ x ∈ search_aggregated g ol, MATCH_THRESHOLD ≤ x.match_score) ∧
    (∀ x ∈ g ++ ol, MATCH_THRESHOLD ≤ x.match_score → x ∈ search_aggregated g ol) := by
  refine ⟨rfl, ?_, ?_⟩
  · intro x hx
    have hx' : x ∈ (g ++ ol).filter (fun b => decide (MATCH_THRESHOLD ≤ b.match_score)) :=
      mem_sort.mp hx
    rcases List.mem_filter.mp hx' with ⟨_, hpred⟩
    simpa using hpred
  · intro x hx hthr
    exact mem_sort.mpr (List.mem_filter.mpr ⟨hx, by simpa using hthr⟩)

/-- A pre-scored candidate above the threshold, for the C2 witness. -/
def witScored2 : ScoredBook :=
  ⟨⟨"Google", "w2", "t", "a", "y", "c", 100, "s", "g", 0, none, none⟩, 50, 10, 60, 60⟩

/-- Witness for C2 at a concrete input. -/
theorem threshold_filter_witness :
    MATCH_THRESHOLD = 40 ∧
    (∀ x ∈ search_aggregated [witScored2] [], MATCH_THRESHOLD ≤ x.match_score) ∧
    (∀ x ∈ [witScored2] ++ [], MATCH_THRESHOLD ≤ x.match_score →
      x ∈ search_aggregated [witScored2] []) :=
  threshold_filter [witScored2] []

/-- C1: the list returned by a resolve call is sorted non-increasingly by
`rank_score`, and within each `rank_score` class it coincides with the
filtered merge (all Google results in response order, then all OpenLibrary
results in response order) — i.e. the descending sort is stable with
respect to the deterministic merge order. -/
theorem resolve_sorted_stable (gresps : List GResponse) (olresp : OLResponse)
    (q : String) (mi : Option String) (g : List ScoredBook)
    (hg : searchGoogle gresps q mi = Except.ok g) :
    List.Pairwise (fun a b => b.rank_score ≤ a.rank_score)
      (search_aggregated g (searchOpenLibrary olresp q mi)) ∧
    ∀ s : Int,
      (search_aggregated g (searchOpenLibrary olresp q mi)).filter
          (fun x => x.rank_score == s) =
        ((g ++ searchOpenLibrary olresp q mi).filter
            (fun b => decide (MATCH_THRESHOLD ≤ b.match_score))).filter
          (fun x => x.rank_score == s) := by
  have hshape : ∀ x ∈ g ++ searchOpenLibrary olresp q mi, x.rank_score = x.score := by
    intro x hx
    rcases List.mem_append.mp hx with hx' | hx'
    · rcases searchGoogle_shape hg x hx' with ⟨b, rfl⟩; rfl
    · rcases searchOpenLibrary_shape olresp q mi x hx' with ⟨b, rfl⟩; rfl
  have hsub : ∀ x ∈ (g ++ searchOpenLibrary olresp q mi).filter
      (fun b => decide (MATCH_THRESHOLD ≤ b.match_score)), x.rank_score = x.score :=
    fun x hx => hshape x (List.mem_filter.mp hx).1
  have hagg : search_aggregated g (searchOpenLibrary olresp q mi) =
      sortByScoreDesc ((g ++ searchOpenLibrary olresp q mi).filter
        (fun b => decide (MATCH_THRESHOLD ≤ b.match_score))) := rfl
  constructor
  · rw [hagg]
    refine List.Pairwise.imp_of_mem ?_
      (sort_sorted ((g ++ searchOpenLibrary olresp q mi).filter
        (fun b => decide (MATCH_THRESHOLD ≤ b.match_score))))
    intro a b ha hb hab
    rw [hsub a (mem_sort.mp ha), hsub b (mem_sort.mp hb)]
    exact hab
  · intro s
    rw [hagg]
    have e1 : (sortByScoreDesc ((g ++ searchOpenLibrary olresp q mi).filter
          (fun b => decide (MATCH_THRESHOLD ≤ b.match_score)))).filter
            (fun x => x.rank_score == s) =
        (sortByScoreDesc ((g ++ searchOpenLibrary olresp q mi).filter
          (fun b => decide (MATCH_THRESHOLD ≤ b.match_score)))).filter
            (fun x => x.score == s) := by
      apply List.filter_congr
      intro x hx
      rw [hsub x (mem_sort.mp hx)]
    have e2 : ((g ++ searchOpenLibrary olresp q mi).filter
          (fun b => decide (MATCH_THRESHOLD ≤ b.match_score))).filter
            (fun x => x.rank_score == s) =
        ((g ++ searchOpenLibrary olresp q mi).filter
          (fun b => decide (MATCH_THRESHOLD ≤ b.match_score))).filter
            (fun x => x.score == s) := by
      apply List.filter_congr
      intro x hx
      rw [hsub x hx]
    rw [e1, sort_filter, ← e2]

/-- An OpenLibrary doc with no populated field, for the C1 witness. -/
def witOLDoc : OLDoc := ⟨none, none, none, none, none, none, none, none⟩

/-- Witness for C1 at a concrete input (Google network failure, one
OpenLibrary doc whose default title "Unknown" matches the query). -/
theorem resolve_sorted_stable_witness :
    List.Pairwise (fun a b => b.rank_score ≤ a.rank_score)
      (search_aggregated []
        (searchOpenLibrary (OLResponse.http 200 (OLBody.parsed (some [witOLDoc])))
          "unknown" none)) ∧
    ∀ s : Int,
      (search_aggregated []
          (searchOpenLibrary (OLResponse.http 200 (OLBody.parsed (some [witOLDoc])))
            "unknown" none)).filter (fun x => x.rank_score == s) =
        ((([] : List ScoredBook) ++
            searchOpenLibrary (OLResponse.http 200 (OLBody.parsed (some [witOLDoc])))
            "unknown" none).filter
          (fun b => decide (MATCH_THRESHOLD ≤ b.match_score))).filter
            (fun x => x.rank_score == s) :=
  resolve_sorted_stable [GResponse.failed]
    (OLResponse.http 200 (OLBody.parsed (some [witOLDoc]))) "unknown" none [] rfl

theorem isSub_nil_left : ∀ (h : List Char), isSub [] h = true := by
  intro h
  cases h <;> rfl

/-- Any title tier against the empty normalized query is at least 40: the
55-rules cannot fire (a normalized title never starts with a space, and the
empty query starts with no nonempty string), while `t.startswith("")` is
always true. -/
theorem title_tier_empty_query {t : String}
    (hhead : ∀ c cs, t.data = c :: cs → isAsciiSpace c = false) :
    40 ≤ title_tier t "" := by
  unfold title_tier
  by_cases h0 : t = ""
  · rw [if_pos h0]; norm_num
  · rw [if_neg h0]
    rw [show (("" ++ " ") : String) = " " from rfl]
    have hA : pyStartsWith t " " = false := by
      unfold pyStartsWith
      cases ht : t.data with
      | nil => rfl
      | cons c cs =>
        have hc : isAsciiSpace c = false := hhead c cs ht
        have hcne : (' ' == c) = false := by
          rw [beq_eq_false_iff_ne]
          intro hcc
          rw [← hcc] at hc
          exact absurd hc (by decide)
        show ((' ' == c) && isPre [] cs) = false
        rw [hcne]
        rfl
    rw [if_neg (by simp [hA])]
    have hB : pyStartsWith "" (t ++ " ") = false := by
      unfold pyStartsWith
      have e3 : (t ++ " ").data = t.data ++ [' '] := by rw [String.data_append]
      rw [e3]
      have hne : t.data ++ [' '] ≠ [] := by simp
      cases hl : t.data ++ [' '] with
      | nil => exact absurd hl hne
      | cons c cs => rfl
    rw [if_neg (by simp [hB])]
    have hC : (pyStartsWith t "" || pyStartsWith "" t) = true := by
      have h1 : pyStartsWith t "" = true := rfl
      simp [h1]
    rw [if_pos (by simp [hC])]

/-- C10: when the query normalizes to the empty string and is not a
detected identifier, every candidate's title tier is at least 40, every
candidate with a non-empty normalized author gets the +30 author bonus, so
every scored candidate has `matchScore ≥ 40` and the default threshold
filter removes nothing. -/
theorem empty_query_passes_filter (q : String) (mi : Option String)
    (hq : normalize_text q = "") (hisbn : is_isbn q = false) :
    (∀ b : Book, 40 ≤ title_tier (normalize_text b.title) (normalize_text q)) ∧
    (∀ b : Book, normalize_text b.author ≠ "" →
      author_bonus (normalize_text b.author) (normalize_text q) = 30) ∧
    (∀ b : Book, 40 ≤ calculate_match_score b q mi) ∧
    (∀ books : List Book,
      (books.map (scoreBook q mi)).filter
          (fun x => decide (MATCH_THRESHOLD ≤ x.match_score)) =
        books.map (scoreBook q mi)) := by
  have tierAll : ∀ b : Book, 40 ≤ title_tier (normalize_text b.title) "" :=
    fun b => title_tier_empty_query (fun c cs h => normalize_head_not_space b.title h)
  have bonusAll : ∀ b : Book, normalize_text b.author ≠ "" →
      author_bonus (normalize_text b.author) "" = 30 := by
    intro b ha
    unfold author_bonus
    have hane : (normalize_text b.author).data ≠ [] := by
      intro h
      apply ha
      apply String.ext
      rw [h]
    have h1 : pyIn (normalize_text b.author) "" = false := by
      unfold pyIn
      cases hd : (normalize_text b.author).data with
      | nil => exact absurd hd hane
      | cons c cs => rfl
    have h2 : pyIn "" (normalize_text b.author) = true := by
      unfold pyIn
      exact isSub_nil_left _
    have ha' : ((normalize_text b.author) == "") = false := beq_eq_false_iff_ne.mpr ha
    simp [h1, h2, ha']
  have matchAll : ∀ b : Book, 40 ≤ calculate_match_score b q mi := by
    intro b
    unfold calculate_match_score
    by_cases h1 : oracle_hit b mi = true
    · simp [h1]
    · by_cases h2 : isbn_query_hit b q = true
      · simp [h1, h2]
      · simp only [h1, h2, Bool.false_eq_true, if_false, hq]
        refine le_min ?_ (by norm_num)
        have ht := tierAll b
        have hb := author_bonus_nonneg (normalize_text b.author) ""
        omega
  have filterAll : ∀ books : List Book,
      (books.map (scoreBook q mi)).filter
          (fun x => decide (MATCH_THRESHOLD ≤ x.match_score)) =
        books.map (scoreBook q mi) := by
    intro books
    apply List.filter_eq_self.mpr
    intro x hx
    rcases List.mem_map.mp hx with ⟨b, _, rfl⟩
    simp only [decide_eq_true_eq]
    show MATCH_THRESHOLD ≤ calculate_match_score b q mi
    exact matchAll b
  rw [hq]
  exact ⟨tierAll, bonusAll, matchAll, filterAll⟩

/-- Witness for C10 at the concrete pure-punctuation query. -/
theorem empty_query_passes_filter_witness :
    normalize_text "!!" = "" ∧ is_isbn "!!" = false ∧
    ((∀ b : Book, 40 ≤ title_tier (normalize_text b.title) (normalize_text "!!")) ∧
     (∀ b : Book, normalize_text b.author ≠ "" →
       author_bonus (normalize_text b.author) (normalize_text "!!") = 30) ∧
     (∀ b : Book, 40 ≤ calculate_match_score b "!!" none) ∧
     (∀ books : List Book,
       (books.map (scoreBook "!!" none)).filter
           (fun x => decide (MATCH_THRESHOLD ≤ x.match_score)) =
         books.map (scoreBook "!!" none))) :=
  ⟨by decide, by decide, empty_query_passes_filter "!!" none (by decide) (by decide)⟩

end BookLogger
